import Mathlib

/-!
Verification development for the google-forms-bot repository.

The embedding covers the two source files:

* form_bot.py — the pure control structure of GoogleFormBot.submit_n_responses
  (a loop over range n that breaks when the cooperative stop flag is observed)
  and of GoogleFormBot._choose_radio_like_human (a triangular-weighted choice
  over n radio indices).  The stop flag, which another thread may set at any
  time, is modelled as a Bool-valued observation function giving the value the
  loop reads at the top of each iteration.  The float value drawn by
  random.uniform(0, total) is modelled exactly as a rational r with
  0 <= r <= total; every weight is a multiple of 1/2, so rational arithmetic
  matches the source arithmetic.  random.choice over n elements is modelled by
  a uniformly distributed index u < n.

* web_app_vercel.py — WebBotManager as a labelled transition system.  Each
  action is one atomic observable step of the manager: a successful start_bot
  call, a rejected start_bot call (worker alive), the worker thread
  constructing and starting the bot, a logger callback during the run, the
  worker finishing normally, the worker dying with an exception, and a
  stop_bot call.  The Flask route handlers /api/start and /api/clear are
  modelled as pure functions of the request data, the session cookie and the
  active_bots map.
-/

namespace FormsBot

/-- One log line as formatted by WebBotManager.log:
the message prefixed with a bracketed timestamp. -/
def logEntry (ts msg : String) : String := "[" ++ ts ++ "] " ++ msg

/-- WebBotManager.log: append the timestamped line, then pop the oldest line
when the list exceeds 100 entries. -/
def logOp (ts msg : String) (logs : List String) : List String :=
  let l := logs ++ [logEntry ts msg]
  if 100 < l.length then l.tail else l

/-- The body of the loop in GoogleFormBot.submit_n_responses, over the list of
iteration indices.  stopped i is the value of the _stop_requested flag read at
the top of iteration i.  Returns the final submitted counter together with the
list of iteration indices that actually performed a submission. -/
def submitGo (stopped : Nat → Bool) : List Nat → Nat × List Nat
  | [] => (0, [])
  | i :: rest =>
    if stopped i then (0, [])
    else ((submitGo stopped rest).1 + 1, i :: (submitGo stopped rest).2)

/-- GoogleFormBot.submit_n_responses: the returned submitted counter. -/
def submit_n_responses (stopped : Nat → Bool) (n : Nat) : Nat :=
  (submitGo stopped (List.range n)).1

/-- The iteration indices at which submit_n_responses performed a submission. -/
def submitEvents (stopped : Nat → Bool) (n : Nat) : List Nat :=
  (submitGo stopped (List.range n)).2

/-- The triangular weight computed for index i of n radios in
GoogleFormBot._choose_radio_like_human: w = n - abs(i - mid) with
mid = (n - 1) / 2. -/
def likertWeight (n i : Nat) : ℚ := (n : ℚ) - |(i : ℚ) - ((n : ℚ) - 1) / 2|

/-- Partial sums of the weights: cumWeight n k is the sum of the weights of
indices 0..k-1, the value of the accumulator upto when the loop reaches
index k. -/
def cumWeight (n : Nat) : Nat → ℚ
  | 0 => 0
  | k + 1 => cumWeight n k + likertWeight n k

/-- total = sum(weights) in _choose_radio_like_human. -/
def totalWeight (n : Nat) : ℚ := cumWeight n n

/-- The cumulative-weight loop of _choose_radio_like_human: starting at index
k with accumulator upto and fuel remaining iterations, return the first index
whose check upto + w >= r succeeds, or none when the loop runs out (the
fall-through to the trailing return radios[-1]). -/
def chooseFromAux (n : Nat) (r : ℚ) : Nat → Nat → ℚ → Option Nat
  | _, 0, _ => none
  | k, fuel + 1, upto =>
    if r ≤ upto + likertWeight n k then some k
    else chooseFromAux n r (k + 1) fuel (upto + likertWeight n k)

/-- The full cumulative-weight loop over indices 0..n-1. -/
def chooseLoop (n : Nat) (r : ℚ) : Option Nat :=
  chooseFromAux n r 0 n 0

/-- The index selected by the n >= 3 branch of _choose_radio_like_human:
the loop result, with the trailing return radios[-1] as fallback. -/
def chooseIdx (n : Nat) (r : ℚ) : Nat :=
  (chooseLoop n r).getD (n - 1)

/-- GoogleFormBot._choose_radio_like_human on a list of n radios, returning
the selected index.  For n <= 2 the source returns random.choice(radios),
modelled by the uniformly distributed index u; otherwise it runs the
triangular-weight loop on the draw r of random.uniform(0, total). -/
def choose_radio_like_human (n u : Nat) (r : ℚ) : Nat :=
  if n ≤ 2 then u else chooseIdx n r

/-- The state of a GoogleFormBot object as far as the manager observes it:
whether _driver is set, and the _stop_requested flag. -/
structure BotState where
  driver : Bool
  stopRequested : Bool
deriving DecidableEq

/-- The lifecycle of the background worker thread:
noWorker covers both self.worker = None and a finished thread
(worker.is_alive() false); spawned c is a started thread that has not yet
constructed the bot; ready c is a thread whose bot is constructed and
started.  c is the count captured by the run_worker closure. -/
inductive WorkerPhase where
  | noWorker : WorkerPhase
  | spawned : Nat → WorkerPhase
  | ready : Nat → WorkerPhase
deriving DecidableEq

/-- The observable fields of WebBotManager. -/
structure WebBotManager where
  bot : Option BotState
  worker : WorkerPhase
  logs : List String
  status : String
  submitted_count : Nat
  target_count : Nat
deriving DecidableEq

/-- WebBotManager.__init__. -/
def initMgr : WebBotManager :=
  { bot := none, worker := WorkerPhase.noWorker, logs := [], status := "idle",
    submitted_count := 0, target_count := 0 }

/-- self.worker and self.worker.is_alive() in start_bot. -/
def workerAlive (m : WebBotManager) : Bool :=
  match m.worker with
  | WorkerPhase.noWorker => false
  | _ => true

/-- GoogleFormBot.quit applied to self.bot when present:
the driver is released, the object remains. -/
def quitBotOpt : Option BotState → Option BotState
  | none => none
  | some b => some { b with driver := false }

/-- The state mutation done by a successful WebBotManager.start_bot call
before spawning the worker: status running, counters reset, logs cleared. -/
def startBotUpdate (c : Nat) (m : WebBotManager) : WebBotManager :=
  { m with status := "running", target_count := c, submitted_count := 0,
           logs := [], worker := WorkerPhase.spawned c }

/-- WebBotManager.start_bot: returns False and leaves the state alone when a
worker is alive, otherwise resets the session and spawns the worker. -/
def mgrStartBot (c : Nat) (m : WebBotManager) : Bool × WebBotManager :=
  if workerAlive m then (false, m) else (true, startBotUpdate c m)

/-- Labels for the atomic steps of a WebBotManager. -/
inductive Action where
  | start : Nat → Action
  | startBusy : Nat → Action
  | winit : String → Action
  | wlog : String → String → Action
  | wok : String → Action
  | werr : String → String → Action
  | stopReq : String → Action
deriving DecidableEq

/-- One atomic step of WebBotManager, as performed by start_bot, stop_bot and
the run_worker thread body.
* start: a successful start_bot call (lines 33-37 and 59-60).
* startBusy: start_bot returning False because the worker is alive.
* winit: run_worker constructs the GoogleFormBot (fresh stop flag), logs
  "Starting bot..." and calls bot.start() (driver up).
* wlog: a logger callback from inside submit_n_responses.
* wok: the worker finishes normally with stop-flag history stopped:
  submitted_count is set, the completion line logged, status becomes
  completed, and the finally block quits the bot.
* werr: the worker dies with exception text e, from the spawned phase
  (construction or start failed) or the ready phase (submission failed):
  ERROR line logged, status error, bot quit in the finally block.
* stopReq: stop_bot with self.bot set: logs, sets the flag, status stopping. -/
inductive Step : WebBotManager → Action → WebBotManager → Prop
  | start (m : WebBotManager) (c : Nat) (h : workerAlive m = false) :
      Step m (Action.start c) (startBotUpdate c m)
  | startBusy (m : WebBotManager) (c : Nat) (h : workerAlive m = true) :
      Step m (Action.startBusy c) m
  | winit (m : WebBotManager) (c : Nat) (ts : String)
      (h : m.worker = WorkerPhase.spawned c) :
      Step m (Action.winit ts)
        { m with bot := some { driver := true, stopRequested := false },
                 logs := logOp ts "Starting bot..." m.logs,
                 worker := WorkerPhase.ready c }
  | wlog (m : WebBotManager) (c : Nat) (ts msg : String)
      (h : m.worker = WorkerPhase.ready c) :
      Step m (Action.wlog ts msg) { m with logs := logOp ts msg m.logs }
  | wok (m : WebBotManager) (c : Nat) (ts : String) (stopped : Nat → Bool)
      (h : m.worker = WorkerPhase.ready c) :
      Step m (Action.wok ts)
        { m with submitted_count := submit_n_responses stopped c,
                 logs := logOp ts
                   ("Completed! Submitted " ++
                     toString (submit_n_responses stopped c) ++ " responses.")
                   m.logs,
                 status := "completed",
                 bot := quitBotOpt m.bot,
                 worker := WorkerPhase.noWorker }
  | werr (m : WebBotManager) (c : Nat) (e ts : String)
      (h : m.worker = WorkerPhase.spawned c ∨ m.worker = WorkerPhase.ready c) :
      Step m (Action.werr e ts)
        { m with logs := logOp ts ("ERROR: " ++ e) m.logs,
                 status := "error",
                 bot := quitBotOpt m.bot,
                 worker := WorkerPhase.noWorker }
  | stopReq (m : WebBotManager) (b : BotState) (ts : String)
      (h : m.bot = some b) :
      Step m (Action.stopReq ts)
        { m with logs := logOp ts "Stop requested..." m.logs,
                 bot := some { b with stopRequested := true },
                 status := "stopping" }

/-- The states a WebBotManager can reach from construction. -/
inductive Reachable : WebBotManager → Prop
  | init : Reachable initMgr
  | step {m : WebBotManager} {a : Action} {mm : WebBotManager} :
      Reachable m → Step m a mm → Reachable mm

/-- The status values named by the code, plus stopping (set by stop_bot). -/
def statusSet : List String := ["idle", "running", "completed", "error", "stopping"]

/-- Invariant of reachable WebBotManager states. -/
def MgrInv (m : WebBotManager) : Prop :=
  m.submitted_count ≤ m.target_count ∧
  (∀ c, m.worker = WorkerPhase.spawned c ∨ m.worker = WorkerPhase.ready c →
      m.target_count = c ∧ m.submitted_count = 0) ∧
  m.logs.length ≤ 100 ∧
  (∀ l ∈ m.logs, ∃ ts rest, l = "[" ++ ts ++ "] " ++ rest) ∧
  m.status ∈ statusSet

/-- A response of a Flask route: status code, error field, message field. -/
structure ApiResponse where
  code : Nat
  error : Option String
  message : Option String
deriving DecidableEq

/-- The /api/start route handler (web_app_vercel.py start_bot): looks up or
creates the bot manager for the session, validates the form URL and the
count, checks the VERCEL environment, and only then calls
WebBotManager.start_bot.  Returns the response, the updated active_bots map,
and whether a bot run was started. -/
def api_start_route (sid : String) (bots : String → Option WebBotManager)
    (form_url : String) (count : Int) (vercel : Bool) :
    ApiResponse × (String → Option WebBotManager) × Bool :=
  let m := (bots sid).getD initMgr
  let bots1 : String → Option WebBotManager :=
    fun k => if k = sid then some m else bots k
  if form_url.trim = "" then
    ({ code := 400, error := some "Please enter a Google Form URL",
       message := none }, bots1, false)
  else if count < 1 ∨ count > 1000 then
    ({ code := 400, error := some "Responses must be between 1 and 1000",
       message := none }, bots1, false)
  else if vercel then
    ({ code := 400,
       error := some "Selenium automation is not supported in serverless environments. Please use a traditional hosting platform like Heroku or Railway for this application.",
       message := none }, bots1, false)
  else
    let r := mgrStartBot count.toNat m
    if r.1 then
      ({ code := 200, error := none, message := some "Bot started successfully" },
       fun k => if k = sid then some r.2 else bots k, true)
    else
      ({ code := 400, error := some "Bot is already running", message := none },
       bots1, false)

/-- The /api/clear route handler (web_app_vercel.py clear_session): when the
session cookie carries a session id present in active_bots, the bot of that
entry is quit and the entry deleted; the session cookie is cleared in every
case.  Returns the cleared session, the updated map, and the final state of
the removed manager (to observe the quit), if one was removed. -/
def clear_session (sess : Option String)
    (bots : String → Option WebBotManager) :
    Option String × (String → Option WebBotManager) × Option WebBotManager :=
  match sess with
  | none => (none, bots, none)
  | some sid =>
    match bots sid with
    | none => (none, bots, none)
    | some mgr =>
      (none, fun k => if k = sid then none else bots k,
       some { mgr with bot := quitBotOpt mgr.bot })

/-- Concrete stop-flag history used in witnesses: the flag is observed set
from iteration 2 on. -/
def stoppedEx : Nat → Bool := fun i => decide (2 ≤ i)

/-- State after a successful start_bot with count 5 from a fresh manager. -/
def mRun : WebBotManager := startBotUpdate 5 initMgr

/-- State after the worker constructed and started the bot. -/
def mReady : WebBotManager :=
  { mRun with bot := some { driver := true, stopRequested := false },
              logs := logOp "00:00:00" "Starting bot..." mRun.logs,
              worker := WorkerPhase.ready 5 }

/-- State after a stop_bot call during the run: status is stopping. -/
def mStopping : WebBotManager :=
  { mReady with logs := logOp "00:00:01" "Stop requested..." mReady.logs,
                bot := some { driver := true, stopRequested := true },
                status := "stopping" }

/-- A fresh manager whose worker was just spawned with count 3. -/
def mErrPre : WebBotManager := startBotUpdate 3 initMgr

/-- The manager after that worker dies with exception text boom. -/
def mErrPost : WebBotManager :=
  { mErrPre with logs := logOp "00:00:02" ("ERROR: " ++ "boom") mErrPre.logs,
                 status := "error",
                 bot := quitBotOpt mErrPre.bot,
                 worker := WorkerPhase.noWorker }

/-- A concrete two-session active_bots map used in witnesses. -/
def botsEx : String → Option WebBotManager :=
  fun k => if k = "s1" then some mReady else if k = "s2" then some mRun else none

lemma submitGo_spec (stopped : Nat → Bool) :
    ∀ l : List Nat, submitGo stopped l =
      ((l.takeWhile fun i => !stopped i).length, l.takeWhile fun i => !stopped i)
  | [] => rfl
  | i :: rest => by
    rw [submitGo, submitGo_spec stopped rest]
    cases h : stopped i <;> simp [List.takeWhile_cons, h]

lemma submit_n_responses_eq (stopped : Nat → Bool) (n : Nat) :
    submit_n_responses stopped n =
      ((List.range n).takeWhile fun i => !stopped i).length := by
  rw [submit_n_responses, submitGo_spec]

lemma submitEvents_eq (stopped : Nat → Bool) (n : Nat) :
    submitEvents stopped n = (List.range n).takeWhile fun i => !stopped i := by
  rw [submitEvents, submitGo_spec]

lemma submit_le (stopped : Nat → Bool) (n : Nat) :
    submit_n_responses stopped n ≤ n := by
  rw [submit_n_responses_eq]
  calc ((List.range n).takeWhile fun i => !stopped i).length
      ≤ (List.range n).length := (List.takeWhile_sublist _).length_le
    _ = n := List.length_range n

lemma logOp_length {logs : List String} (h : logs.length ≤ 100) (ts msg : String) :
    (logOp ts msg logs).length ≤ 100 := by
  simp only [logOp]
  split
  · simp; omega
  · simp only [List.length_append, List.length_singleton] at *
    omega

lemma logOp_of_lt {logs : List String} (h : logs.length < 100) (ts msg : String) :
    logOp ts msg logs = logs ++ [logEntry ts msg] := by
  simp only [logOp]
  split
  · next hlen => simp at hlen; omega
  · rfl

lemma logOp_of_eq {logs : List String} (h : logs.length = 100) (ts msg : String) :
    logOp ts msg logs = logs.tail ++ [logEntry ts msg] := by
  simp only [logOp]
  split
  · next hlen =>
    cases logs with
    | nil => simp at h
    | cons a l => simp
  · next hlen => simp at hlen; omega

lemma logOp_mem {logs : List String} {l ts msg : String}
    (h : l ∈ logOp ts msg logs) : l ∈ logs ∨ l = logEntry ts msg := by
  simp only [logOp] at h
  split at h
  · rcases List.mem_append.1 (List.mem_of_mem_tail h) with h2 | h2
    · exact Or.inl h2
    · exact Or.inr (by simpa using h2)
  · rcases List.mem_append.1 h with h2 | h2
    · exact Or.inl h2
    · exact Or.inr (by simpa using h2)

lemma logOp_getLast (ts msg : String) (logs : List String) :
    (logOp ts msg logs).getLast? = some (logEntry ts msg) := by
  simp only [logOp]
  split
  · next hlen =>
    cases logs with
    | nil => simp at hlen
    | cons a l => simp [List.getLast?_concat]
  · exact List.getLast?_concat _

lemma likertWeight_pos {n i : Nat} (h : i < n) : 0 < likertWeight n i := by
  have h1 : (i : ℚ) + 1 ≤ (n : ℚ) := by exact_mod_cast h
  have h0 : (0 : ℚ) ≤ (i : ℚ) := Nat.cast_nonneg i
  have habs : |(i : ℚ) - ((n : ℚ) - 1) / 2| < (n : ℚ) := by
    rw [abs_lt]
    constructor <;> linarith
  unfold likertWeight
  linarith

lemma cumWeight_add_le (n : Nat) :
    ∀ d a, a + d ≤ n → cumWeight n a ≤ cumWeight n (a + d)
  | 0, a, _ => le_refl _
  | d + 1, a, h => by
    have ih := cumWeight_add_le n d a (by omega)
    have hw : 0 < likertWeight n (a + d) := likertWeight_pos (by omega)
    have he : cumWeight n (a + (d + 1)) = cumWeight n (a + d) + likertWeight n (a + d) := by
      rw [show a + (d + 1) = (a + d) + 1 by omega]
      rfl
    linarith

lemma cumWeight_le_cumWeight (n : Nat) {a b : Nat} (hab : a ≤ b) (hbn : b ≤ n) :
    cumWeight n a ≤ cumWeight n b := by
  have := cumWeight_add_le n (b - a) a (by omega)
  rwa [show a + (b - a) = b by omega] at this

lemma cumWeight_lt_cumWeight (n : Nat) {a b : Nat} (hab : a < b) (hbn : b ≤ n) :
    cumWeight n a < cumWeight n b := by
  have h1 : cumWeight n a + likertWeight n a = cumWeight n (a + 1) := rfl
  have h2 : cumWeight n (a + 1) ≤ cumWeight n b := cumWeight_le_cumWeight n (by omega) hbn
  have hw : 0 < likertWeight n a := likertWeight_pos (by omega)
  linarith

lemma chooseFromAux_eq_some (n : Nat) (r : ℚ) :
    ∀ fuel k, k + fuel = n → ∀ i,
      (chooseFromAux n r k fuel (cumWeight n k) = some i ↔
        (k ≤ i ∧ i < n ∧ r ≤ cumWeight n (i + 1) ∧
          ∀ j, k ≤ j → j < i → cumWeight n (j + 1) < r)) := by
  intro fuel
  induction fuel with
  | zero =>
    intro k hk i
    rw [chooseFromAux]
    constructor
    · intro h; simp at h
    · rintro ⟨h1, h2, -, -⟩; omega
  | succ fuel ih =>
    intro k hk i
    rw [chooseFromAux]
    have hcum : cumWeight n k + likertWeight n k = cumWeight n (k + 1) := rfl
    by_cases hc : r ≤ cumWeight n k + likertWeight n k
    · rw [if_pos hc]
      constructor
      · intro h
        have hik : k = i := Option.some.inj h
        subst hik
        refine ⟨le_refl _, by omega, by rw [← hcum]; exact hc, ?_⟩
        intro j hj1 hj2; omega
      · rintro ⟨h1, h2, h3, h4⟩
        have : i = k := by
          by_contra hne
          have hki : k < i := lt_of_le_of_ne h1 (Ne.symm hne)
          have := h4 k (le_refl _) hki
          rw [hcum] at hc
          linarith
        subst this; rfl
    · rw [if_neg hc, hcum]
      have hlt : cumWeight n (k + 1) < r := by rw [← hcum]; exact lt_of_not_le hc
      rw [ih (k + 1) (by omega) i]
      constructor
      · rintro ⟨h1, h2, h3, h4⟩
        refine ⟨by omega, h2, h3, ?_⟩
        intro j hj1 hj2
        rcases Nat.eq_or_lt_of_le hj1 with rfl | hjlt
        · exact hlt
        · exact h4 j hjlt hj2
      · rintro ⟨h1, h2, h3, h4⟩
        have hik : i ≠ k := by
          rintro rfl
          rw [← hcum] at h3
          exact hc h3
        refine ⟨by omega, h2, h3, ?_⟩
        intro j hj1 hj2
        exact h4 j (by omega) hj2

lemma chooseFromAux_isSome (n : Nat) (r : ℚ) (hr : r ≤ cumWeight n n) :
    ∀ fuel k, k + fuel = n → 0 < fuel →
      (chooseFromAux n r k fuel (cumWeight n k)).isSome = true := by
  intro fuel
  induction fuel with
  | zero => intro k hk h0; omega
  | succ fuel ih =>
    intro k hk h0
    rw [chooseFromAux]
    have hcum : cumWeight n k + likertWeight n k = cumWeight n (k + 1) := rfl
    by_cases hc : r ≤ cumWeight n k + likertWeight n k
    · rw [if_pos hc]; rfl
    · rw [if_neg hc]
      rcases Nat.eq_zero_or_pos fuel with hf | hf
      · subst hf
        rw [hcum, show k + 1 = n by omega] at hc
        exact absurd hr hc
      · rw [hcum]
        exact ih (k + 1) (by omega) hf

lemma chooseLoop_eq_some (n : Nat) (r : ℚ) (i : Nat) :
    chooseLoop n r = some i ↔
      i < n ∧ r ≤ cumWeight n (i + 1) ∧ ∀ j, j < i → cumWeight n (j + 1) < r := by
  have e : chooseLoop n r = chooseFromAux n r 0 n (cumWeight n 0) := rfl
  rw [e, chooseFromAux_eq_some n r n 0 (by omega) i]
  constructor
  · rintro ⟨-, h2, h3, h4⟩
    exact ⟨h2, h3, fun j hj => h4 j (Nat.zero_le j) hj⟩
  · rintro ⟨h2, h3, h4⟩
    exact ⟨Nat.zero_le i, h2, h3, fun j _ hj => h4 j hj⟩

lemma chooseLoop_isSome {n : Nat} (hn : 0 < n) {r : ℚ} (hr : r ≤ totalWeight n) :
    (chooseLoop n r).isSome = true := by
  have e : chooseLoop n r = chooseFromAux n r 0 n (cumWeight n 0) := rfl
  rw [e]
  exact chooseFromAux_isSome n r hr n 0 (by omega) hn

lemma chooseIdx_lt {n : Nat} (hn : 0 < n) {r : ℚ} (hr : r ≤ totalWeight n) :
    chooseIdx n r < n := by
  obtain ⟨i, hi⟩ := Option.isSome_iff_exists.1 (chooseLoop_isSome hn hr)
  have hchar := (chooseLoop_eq_some n r i).1 hi
  rw [chooseIdx, hi, Option.getD_some]
  exact hchar.1

lemma chooseIdx_eq_iff {n : Nat} (hn : 0 < n) {r : ℚ}
    (hrt : r ≤ totalWeight n) {i : Nat} (hi : i < n) :
    chooseIdx n r = i ↔
      ((i = 0 ∧ r ≤ cumWeight n 1) ∨
        (1 ≤ i ∧ cumWeight n i < r ∧ r ≤ cumWeight n (i + 1))) := by
  obtain ⟨j, hj⟩ := Option.isSome_iff_exists.1 (chooseLoop_isSome hn hrt)
  have hchar := (chooseLoop_eq_some n r j).1 hj
  have hidx : chooseIdx n r = j := by rw [chooseIdx, hj, Option.getD_some]
  rw [hidx]
  constructor
  · rintro rfl
    rcases Nat.eq_zero_or_pos j with rfl | hpos
    · exact Or.inl ⟨rfl, hchar.2.1⟩
    · refine Or.inr ⟨hpos, ?_, hchar.2.1⟩
      have := hchar.2.2 (j - 1) (by omega)
      rwa [show j - 1 + 1 = j by omega] at this
  · rintro (⟨rfl, hle⟩ | ⟨h1, hlt, hle⟩)
    · have h0 : chooseLoop n r = some 0 :=
        (chooseLoop_eq_some n r 0).2 ⟨hn, hle, fun j2 hj2 => absurd hj2 (Nat.not_lt_zero j2)⟩
      rw [hj] at h0
      exact Option.some.inj h0
    · have h0 : chooseLoop n r = some i := by
        refine (chooseLoop_eq_some n r i).2 ⟨hi, hle, ?_⟩
        intro j2 hj2
        have hle2 : cumWeight n (j2 + 1) ≤ cumWeight n i :=
          cumWeight_le_cumWeight n (by omega) (by omega)
        linarith
      rw [hj] at h0
      exact Option.some.inj h0

lemma likertWeight_le_mid (n i : Nat) : likertWeight n i ≤ likertWeight n (n / 2) := by
  set m := n / 2 with hm
  have key : (2 * (m : ℤ) - ((n : ℤ) - 1)).natAbs ≤
      (2 * (i : ℤ) - ((n : ℤ) - 1)).natAbs := by omega
  have keyQ : |2 * ((m : Nat) : ℚ) - ((n : ℚ) - 1)| ≤ |2 * (i : ℚ) - ((n : ℚ) - 1)| := by
    have h1 : ((2 * (m : ℤ) - ((n : ℤ) - 1) : ℤ) : ℚ) =
        2 * ((m : Nat) : ℚ) - ((n : ℚ) - 1) := by push_cast; ring
    have h2 : ((2 * (i : ℤ) - ((n : ℤ) - 1) : ℤ) : ℚ) =
        2 * (i : ℚ) - ((n : ℚ) - 1) := by push_cast; ring
    rw [← h1, ← h2, ← Int.cast_abs, ← Int.cast_abs,
        Int.abs_eq_natAbs, Int.abs_eq_natAbs]
    exact_mod_cast key
  have habs : ∀ x : ℚ, |x - ((n : ℚ) - 1) / 2| = |2 * x - ((n : ℚ) - 1)| / 2 := by
    intro x
    rw [show 2 * x - ((n : ℚ) - 1) = 2 * (x - ((n : ℚ) - 1) / 2) by ring, abs_mul]
    norm_num
  unfold likertWeight
  rw [habs, habs]
  linarith

lemma initMgr_inv : MgrInv initMgr := by
  refine ⟨le_refl _, ?_, ?_, ?_, ?_⟩
  · intro c hc
    rcases hc with hc | hc <;> simp [initMgr] at hc
  · simp [initMgr]
  · intro l hl
    simp [initMgr] at hl
  · simp [initMgr, statusSet]

lemma step_inv {m : WebBotManager} {a : Action} {mm : WebBotManager}
    (hinv : MgrInv m) (hs : Step m a mm) : MgrInv mm := by
  obtain ⟨hcnt, hpend, hlen, hts, hst⟩ := hinv
  cases hs with
  | start c h =>
    refine ⟨Nat.zero_le _, ?_, ?_, ?_, ?_⟩
    · intro c2 hc2
      rcases hc2 with hc2 | hc2
      · simp [startBotUpdate] at hc2
        simp [startBotUpdate, hc2]
      · simp [startBotUpdate] at hc2
    · simp [startBotUpdate]
    · intro l hl
      simp [startBotUpdate] at hl
    · simp [startBotUpdate, statusSet]
  | startBusy c h => exact ⟨hcnt, hpend, hlen, hts, hst⟩
  | winit c ts h =>
    refine ⟨hcnt, ?_, logOp_length hlen ts _, ?_, hst⟩
    · intro c2 hc2
      rcases hc2 with hc2 | hc2
      · simp at hc2
      · simp at hc2
        exact hpend c2 (Or.inl (by rw [h, hc2]))
    · intro l hl
      rcases logOp_mem hl with h2 | h2
      · exact hts l h2
      · exact ⟨ts, _, h2⟩
  | wlog c ts msg h =>
    refine ⟨hcnt, hpend, logOp_length hlen ts msg, ?_, hst⟩
    intro l hl
    rcases logOp_mem hl with h2 | h2
    · exact hts l h2
    · exact ⟨ts, msg, h2⟩
  | wok c ts stopped h =>
    have htc : m.target_count = c := (hpend c (Or.inr h)).1
    refine ⟨?_, ?_, logOp_length hlen ts _, ?_, ?_⟩
    · simp only [htc]
      exact submit_le stopped c
    · intro c2 hc2
      rcases hc2 with hc2 | hc2 <;> simp at hc2
    · intro l hl
      rcases logOp_mem hl with h2 | h2
      · exact hts l h2
      · exact ⟨ts, _, h2⟩
    · simp [statusSet]
  | werr c e ts h =>
    refine ⟨hcnt, ?_, logOp_length hlen ts _, ?_, ?_⟩
    · intro c2 hc2
      rcases hc2 with hc2 | hc2 <;> simp at hc2
    · intro l hl
      rcases logOp_mem hl with h2 | h2
      · exact hts l h2
      · exact ⟨ts, _, h2⟩
    · simp [statusSet]
  | stopReq b ts h =>
    refine ⟨hcnt, hpend, logOp_length hlen ts _, ?_, ?_⟩
    · intro l hl
      rcases logOp_mem hl with h2 | h2
      · exact hts l h2
      · exact ⟨ts, _, h2⟩
    · simp [statusSet]

lemma reachable_inv {m : WebBotManager} (h : Reachable m) : MgrInv m := by
  induction h with
  | init => exact initMgr_inv
  | step hr hs ih => exact step_inv ih hs

/-- C1: submit_n_responses returns a count submitted with 0 <= submitted <= n,
and in every reachable manager state, in particular after the worker finishes,
submitted_count is at most target_count. -/
theorem submit_counters_bounded :
    (∀ stopped n, 0 ≤ submit_n_responses stopped n ∧ submit_n_responses stopped n ≤ n) ∧
    (∀ m, Reachable m → m.submitted_count ≤ m.target_count) := by
  constructor
  · intro stopped n
    exact ⟨Nat.zero_le _, submit_le stopped n⟩
  · intro m hm
    exact (reachable_inv hm).1

/-- Witness for C1 at the stop-flag history stoppedEx, n = 5 and the initial
manager state. -/
theorem submit_counters_bounded_witness :
    (0 ≤ submit_n_responses stoppedEx 5 ∧ submit_n_responses stoppedEx 5 ≤ 5) ∧
    initMgr.submitted_count ≤ initMgr.target_count :=
  ⟨submit_counters_bounded.1 stoppedEx 5,
   submit_counters_bounded.2 initMgr Reachable.init⟩

/-- C2: when the stop flag is monotone (once set it stays set) and is set by
iteration k, every iteration that performed a submission observed the flag
unset and lies before k, and the returned count is exactly the number of
iterations before the first one that observed the flag. -/
theorem stop_flag_halts_submissions (stopped : Nat → Bool) (n k : Nat)
    (hmono : ∀ i j, i ≤ j → stopped i = true → stopped j = true)
    (hk : stopped k = true) :
    (∀ i ∈ submitEvents stopped n, i < k ∧ stopped i = false) ∧
    submit_n_responses stopped n =
      ((List.range n).takeWhile fun i => !stopped i).length := by
  constructor
  · intro i hi
    rw [submitEvents_eq] at hi
    have hfalse : (!stopped i) = true :=
      List.mem_takeWhile_imp (p := fun i => !stopped i) hi
    have hfi : stopped i = false := by simpa using hfalse
    refine ⟨?_, hfi⟩
    by_contra hik
    have : stopped i = true := hmono k i (by omega) hk
    rw [hfi] at this
    exact Bool.false_ne_true this
  · exact submit_n_responses_eq stopped n

/-- Witness for C2 at stoppedEx (flag set from iteration 2 on) and n = 5. -/
theorem stop_flag_halts_submissions_witness :
    submit_n_responses stoppedEx 5 =
      ((List.range 5).takeWhile fun i => !stoppedEx i).length :=
  (stop_flag_halts_submissions stoppedEx 5 2
    (fun i j hij hi => by
      simp only [stoppedEx, decide_eq_true_eq] at hi ⊢
      omega)
    (by simp [stoppedEx])).2

/-- C5: any worker-thread exception step sets status to error, appends the
timestamped ERROR line carrying the exception text (it becomes the last log
line), quits the bot driver if a bot exists, ends the worker, and changes
nothing else: the counters are untouched and no retry happens. -/
theorem worker_error_no_recovery (m mm : WebBotManager) (e ts : String)
    (hs : Step m (Action.werr e ts) mm) :
    mm.status = "error" ∧
    mm.logs = logOp ts ("ERROR: " ++ e) m.logs ∧
    mm.logs.getLast? = some (logEntry ts ("ERROR: " ++ e)) ∧
    mm.bot = quitBotOpt m.bot ∧
    (∀ b, m.bot = some b → mm.bot = some { b with driver := false }) ∧
    workerAlive mm = false ∧
    mm.submitted_count = m.submitted_count ∧
    mm.target_count = m.target_count := by
  cases hs with
  | werr c h =>
    refine ⟨rfl, rfl, logOp_getLast ts _ m.logs, rfl, ?_, rfl, rfl, rfl⟩
    intro b hb
    rw [hb]
    rfl

/-- Witness for C5: a concrete error step from the spawned phase. -/
theorem worker_error_no_recovery_witness :
    mErrPost.status = "error" ∧
    mErrPost.logs.getLast? = some (logEntry "00:00:02" ("ERROR: " ++ "boom")) ∧
    workerAlive mErrPost = false :=
  ⟨(worker_error_no_recovery mErrPre mErrPost "boom" "00:00:02"
      (Step.werr mErrPre 3 "boom" "00:00:02" (Or.inl rfl))).1,
   (worker_error_no_recovery mErrPre mErrPost "boom" "00:00:02"
      (Step.werr mErrPre 3 "boom" "00:00:02" (Or.inl rfl))).2.2.1,
   (worker_error_no_recovery mErrPre mErrPost "boom" "00:00:02"
      (Step.werr mErrPre 3 "boom" "00:00:02" (Or.inl rfl))).2.2.2.2.2.1⟩

/-- C6: along any reachable step that is not a successful start_bot call,
submitted_count does not decrease and target_count does not change; a
successful start_bot step is exactly the reset, setting submitted_count to 0
and target_count to the new count. -/
theorem counters_monotone_until_reset (m : WebBotManager) (a : Action)
    (mm : WebBotManager) (hr : Reachable m) (hs : Step m a mm) :
    ((∀ c, a ≠ Action.start c) →
      m.submitted_count ≤ mm.submitted_count ∧ mm.target_count = m.target_count) ∧
    (∀ c, a = Action.start c → mm.submitted_count = 0 ∧ mm.target_count = c) := by
  cases hs with
  | start c h =>
    constructor
    · intro hne
      exact absurd rfl (hne c)
    · intro c2 hc2
      injection hc2 with hcc
      subst hcc
      exact ⟨rfl, rfl⟩
  | startBusy c h =>
    refine ⟨fun _ => ⟨le_refl _, rfl⟩, ?_⟩
    intro c2 hc2
    simp at hc2
  | winit c ts h =>
    refine ⟨fun _ => ⟨le_refl _, rfl⟩, ?_⟩
    intro c2 hc2
    simp at hc2
  | wlog c ts msg h =>
    refine ⟨fun _ => ⟨le_refl _, rfl⟩, ?_⟩
    intro c2 hc2
    simp at hc2
  | wok c ts stopped h =>
    have h0 : m.submitted_count = 0 := ((reachable_inv hr).2.1 c (Or.inr h)).2
    refine ⟨fun _ => ⟨by rw [h0]; exact Nat.zero_le _, rfl⟩, ?_⟩
    intro c2 hc2
    simp at hc2
  | werr c e2 h =>
    refine ⟨fun _ => ⟨le_refl _, rfl⟩, ?_⟩
    intro c2 hc2
    simp at hc2
  | stopReq b ts h =>
    refine ⟨fun _ => ⟨le_refl _, rfl⟩, ?_⟩
    intro c2 hc2
    simp at hc2

/-- Witness for C6: the concrete start step from the initial state resets the
counters. -/
theorem counters_monotone_until_reset_witness :
    mRun.submitted_count = 0 ∧ mRun.target_count = 5 :=
  (counters_monotone_until_reset initMgr (Action.start 5) mRun Reachable.init
    (Step.start initMgr 5 rfl)).2 5 rfl

/-- C7: WebBotManager.log keeps at most 100 lines, drops the oldest line
first when full, formats every stored line as the message prefixed with a
bracketed timestamp, and every reachable state satisfies both the bound and
the format. -/
theorem log_ring_buffer :
    (∀ ts msg logs, logs.length ≤ 100 →
      ((logOp ts msg logs).length ≤ 100 ∧
        (logs.length < 100 → logOp ts msg logs = logs ++ [logEntry ts msg]) ∧
        (logs.length = 100 → logOp ts msg logs = logs.tail ++ [logEntry ts msg]))) ∧
    (∀ ts msg, logEntry ts msg = "[" ++ ts ++ "] " ++ msg) ∧
    (∀ m, Reachable m →
      m.logs.length ≤ 100 ∧ ∀ l ∈ m.logs, ∃ ts rest, l = "[" ++ ts ++ "] " ++ rest) := by
  refine ⟨?_, fun ts msg => rfl, ?_⟩
  · intro ts msg logs h
    exact ⟨logOp_length h ts msg, fun hlt => logOp_of_lt hlt ts msg,
           fun heq => logOp_of_eq heq ts msg⟩
  · intro m hm
    exact ⟨(reachable_inv hm).2.2.1, (reachable_inv hm).2.2.2.1⟩

/-- Witness for C7 at a concrete log call and the initial state. -/
theorem log_ring_buffer_witness :
    (logOp "12:00:00" "hello" []).length ≤ 100 ∧
    initMgr.logs.length ≤ 100 :=
  ⟨(log_ring_buffer.1 "12:00:00" "hello" [] (by simp)).1,
   (log_ring_buffer.2.2 initMgr Reachable.init).1⟩

/-- C3 counterexample: the claim that every reachable status lies in
the set containing idle, running, completed and error is false: after a
start, the worker bringing the bot up and a stop_bot call, the reachable
state mStopping has status stopping, which is outside that set. -/
theorem status_stopping_counterexample :
    Reachable mStopping ∧
    mStopping.status ∉ (["idle", "running", "completed", "error"] : List String) :=
  ⟨Reachable.step (Reachable.step (Reachable.step Reachable.init
      (Step.start initMgr 5 rfl))
      (Step.winit mRun 5 "00:00:00" rfl))
      (Step.stopReq mReady { driver := true, stopRequested := false } "00:00:01" rfl),
   by decide⟩

/-- C3 (amended): every reachable status is one of idle, running, completed,
error or stopping; a session starts idle, a successful start sets running, a
normal worker exit sets completed, a worker exception sets error, a stop
request sets stopping, and no other step changes the status. -/
theorem status_machine_amended :
    initMgr.status = "idle" ∧
    (∀ m, Reachable m → m.status ∈ statusSet) ∧
    (∀ m a mm, Step m a mm →
      mm.status = m.status ∨
      ((∃ c, a = Action.start c) ∧ mm.status = "running") ∨
      ((∃ ts, a = Action.wok ts) ∧ mm.status = "completed") ∨
      ((∃ e ts, a = Action.werr e ts) ∧ mm.status = "error") ∨
      ((∃ ts, a = Action.stopReq ts) ∧ mm.status = "stopping")) := by
  refine ⟨rfl, ?_, ?_⟩
  · intro m hm
    exact (reachable_inv hm).2.2.2.2
  · intro m a mm hs
    cases hs with
    | start c h => exact Or.inr (Or.inl ⟨⟨c, rfl⟩, rfl⟩)
    | startBusy c h => exact Or.inl rfl
    | winit c ts h => exact Or.inl rfl
    | wlog c ts msg h => exact Or.inl rfl
    | wok c ts stopped h => exact Or.inr (Or.inr (Or.inl ⟨⟨ts, rfl⟩, rfl⟩))
    | werr c e ts h => exact Or.inr (Or.inr (Or.inr (Or.inl ⟨⟨e, ts, rfl⟩, rfl⟩)))
    | stopReq b ts h => exact Or.inr (Or.inr (Or.inr (Or.inr ⟨⟨ts, rfl⟩, rfl⟩)))

/-- Witness for the amended C3: the reachable state mStopping has its status
inside the amended status set. -/
theorem status_machine_amended_witness : mStopping.status ∈ statusSet :=
  status_machine_amended.2.1 mStopping
    (Reachable.step (Reachable.step (Reachable.step Reachable.init
      (Step.start initMgr 5 rfl))
      (Step.winit mRun 5 "00:00:00" rfl))
      (Step.stopReq mReady { driver := true, stopRequested := false } "00:00:01" rfl))

/-- C4: the weight of index i among n radios is the triangular value
n - abs(i - (n-1)/2), maximal at the middle index n/2; for n >= 3 and a
uniform draw r in the interval from 0 to the weight total, index i is
selected exactly when r falls in the half-open cumulative-weight interval of
index i, whose length is the weight of i — so the selection probability is
proportional to the triangular weight; for n <= 2 the selection returns the
uniformly drawn index u, hence is uniform. -/
theorem choose_radio_triangular :
    (∀ n i : Nat, i < n →
      likertWeight n i = (n : ℚ) - |(i : ℚ) - ((n : ℚ) - 1) / 2| ∧
      likertWeight n i ≤ likertWeight n (n / 2)) ∧
    (∀ n i : Nat, cumWeight n (i + 1) - cumWeight n i = likertWeight n i) ∧
    (∀ n : Nat, 3 ≤ n → ∀ u : Nat, ∀ r : ℚ, 0 ≤ r → r ≤ totalWeight n →
      ∀ i : Nat, i < n →
        (choose_radio_like_human n u r = i ↔
          ((i = 0 ∧ r ≤ cumWeight n 1) ∨
            (1 ≤ i ∧ cumWeight n i < r ∧ r ≤ cumWeight n (i + 1))))) ∧
    (∀ (n u : Nat) (r : ℚ), n ≤ 2 → u < n → choose_radio_like_human n u r = u) := by
  refine ⟨?_, ?_, ?_, ?_⟩
  · intro n i hi
    exact ⟨rfl, likertWeight_le_mid n i⟩
  · intro n i
    have e : cumWeight n (i + 1) = cumWeight n i + likertWeight n i := rfl
    rw [e]
    ring
  · intro n hn u r _ hrt i hi
    have he : choose_radio_like_human n u r = chooseIdx n r := by
      unfold choose_radio_like_human
      rw [if_neg (by omega)]
    rw [he]
    exact chooseIdx_eq_iff (by omega) hrt hi
  · intro n u r hn hu
    unfold choose_radio_like_human
    rw [if_pos hn]

/-- Witness for C4 at n = 3 (weights 2, 3, 2), r = 1 and the two-element
uniform case. -/
theorem choose_radio_triangular_witness :
    (likertWeight 3 1 = (3 : ℚ) - |(1 : ℚ) - ((3 : ℚ) - 1) / 2| ∧
      likertWeight 3 1 ≤ likertWeight 3 (3 / 2)) ∧
    cumWeight 3 (1 + 1) - cumWeight 3 1 = likertWeight 3 1 ∧
    (choose_radio_like_human 3 4 1 = 0 ↔
      ((0 = 0 ∧ (1 : ℚ) ≤ cumWeight 3 1) ∨
        (1 ≤ 0 ∧ cumWeight 3 0 < 1 ∧ (1 : ℚ) ≤ cumWeight 3 (0 + 1)))) ∧
    choose_radio_like_human 2 1 0 = 1 :=
  ⟨choose_radio_triangular.1 3 1 (by omega),
   choose_radio_triangular.2.1 3 1,
   choose_radio_triangular.2.2.1 3 (by omega) 4 1 (by norm_num)
     (by norm_num [totalWeight, cumWeight, likertWeight, abs]) 0 (by omega),
   choose_radio_triangular.2.2.2 2 1 0 (by omega) (by omega)⟩

/-- C8: clearing a session with cookie sid removes exactly the entry of sid
from the active_bots map, leaves every other entry unchanged, clears the
session cookie, and the removed manager had its bot quit. -/
theorem clear_session_frame (sid : String) (bots : String → Option WebBotManager) :
    (clear_session (some sid) bots).2.1 sid = none ∧
    (∀ k, k ≠ sid → (clear_session (some sid) bots).2.1 k = bots k) ∧
    (clear_session (some sid) bots).1 = none ∧
    (∀ mgr, bots sid = some mgr →
      (clear_session (some sid) bots).2.2 =
        some { mgr with bot := quitBotOpt mgr.bot }) := by
  rcases hb : bots sid with _ | mgr
  · refine ⟨?_, ?_, ?_, ?_⟩
    · simp [clear_session, hb]
    · intro k hk
      simp [clear_session, hb]
    · simp [clear_session, hb]
    · intro mgr hmgr
      exact Option.noConfusion hmgr
  · refine ⟨?_, ?_, ?_, ?_⟩
    · simp [clear_session, hb]
    · intro k hk
      simp [clear_session, hb, hk]
    · simp [clear_session, hb]
    · intro mgr2 hmgr
      injection hmgr with hm
      subst hm
      simp [clear_session, hb]

/-- Witness for C8 on the two-session map botsEx, clearing session s1. -/
theorem clear_session_frame_witness :
    (clear_session (some "s1") botsEx).2.1 "s1" = none ∧
    (clear_session (some "s1") botsEx).2.1 "s2" = botsEx "s2" ∧
    (clear_session (some "s1") botsEx).1 = none ∧
    (clear_session (some "s1") botsEx).2.2 =
      some { mReady with bot := quitBotOpt mReady.bot } :=
  ⟨(clear_session_frame "s1" botsEx).1,
   (clear_session_frame "s1" botsEx).2.1 "s2" (by decide),
   (clear_session_frame "s1" botsEx).2.2.1,
   (clear_session_frame "s1" botsEx).2.2.2 mReady (by simp [botsEx])⟩

/-- C9: when the form URL is blank after stripping, or the count is outside
1..1000, the /api/start handler returns status 400 with an error message, no
bot run is started, and the bot manager state of the session (and of every
other session) is unchanged. -/
theorem api_start_validates_first (sid : String)
    (bots : String → Option WebBotManager) (form_url : String) (count : Int)
    (vercel : Bool)
    (hbad : form_url.trim = "" ∨ count < 1 ∨ count > 1000) :
    (api_start_route sid bots form_url count vercel).1.code = 400 ∧
    (api_start_route sid bots form_url count vercel).1.error.isSome = true ∧
    (api_start_route sid bots form_url count vercel).2.2 = false ∧
    (∀ m, bots sid = some m →
      (api_start_route sid bots form_url count vercel).2.1 sid = some m) ∧
    (∀ k, k ≠ sid →
      (api_start_route sid bots form_url count vercel).2.1 k = bots k) := by
  by_cases htrim : form_url.trim = ""
  · simp only [api_start_route, if_pos htrim]
    refine ⟨trivial, rfl, trivial, ?_, ?_⟩
    · intro m hm
      simp [hm]
    · intro k hk
      simp [hk]
  · rcases hbad with h | hcnt
    · exact absurd h htrim
    · simp only [api_start_route, if_neg htrim, if_pos hcnt]
      refine ⟨trivial, rfl, trivial, ?_, ?_⟩
      · intro m hm
        simp [hm]
      · intro k hk
        simp [hk]

/-- Witness for C9: an out-of-range count (0) on the two-session map. -/
theorem api_start_validates_first_witness :
    (api_start_route "s1" botsEx "http://x" 0 false).1.code = 400 ∧
    (api_start_route "s1" botsEx "http://x" 0 false).1.error.isSome = true ∧
    (api_start_route "s1" botsEx "http://x" 0 false).2.2 = false ∧
    (api_start_route "s1" botsEx "http://x" 0 false).2.1 "s1" = some mReady ∧
    (api_start_route "s1" botsEx "http://x" 0 false).2.1 "s2" = botsEx "s2" :=
  ⟨(api_start_validates_first "s1" botsEx "http://x" 0 false
      (Or.inr (Or.inl (by norm_num)))).1,
   (api_start_validates_first "s1" botsEx "http://x" 0 false
      (Or.inr (Or.inl (by norm_num)))).2.1,
   (api_start_validates_first "s1" botsEx "http://x" 0 false
      (Or.inr (Or.inl (by norm_num)))).2.2.1,
   (api_start_validates_first "s1" botsEx "http://x" 0 false
      (Or.inr (Or.inl (by norm_num)))).2.2.2.1 mReady (by simp [botsEx]),
   (api_start_validates_first "s1" botsEx "http://x" 0 false
      (Or.inr (Or.inl (by norm_num)))).2.2.2.2 "s2" (by decide)⟩

/-- C10: on a non-empty radio list with the draws in range,
_choose_radio_like_human returns an in-range index, so indexing the list
succeeds; and for n >= 3 the cumulative-weight loop itself returns, so the
trailing fallback return of the last element is unreachable. -/
theorem choose_radio_safe (radios : List Nat) (u : Nat) (r : ℚ)
    (hne : radios ≠ []) (hu : u < radios.length) (_hr0 : 0 ≤ r)
    (hrt : r ≤ totalWeight radios.length) :
    choose_radio_like_human radios.length u r < radios.length ∧
    (radios.get? (choose_radio_like_human radios.length u r)).isSome = true ∧
    (3 ≤ radios.length → (chooseLoop radios.length r).isSome = true) := by
  have hn : 0 < radios.length := List.length_pos.2 hne
  have hlt : choose_radio_like_human radios.length u r < radios.length := by
    unfold choose_radio_like_human
    split
    · exact hu
    · exact chooseIdx_lt hn hrt
  refine ⟨hlt, ?_, ?_⟩
  · rw [List.get?_eq_get hlt]
    rfl
  · intro _
    exact chooseLoop_isSome hn hrt

/-- Witness for C10 on the list with three radios and r = 1. -/
theorem choose_radio_safe_witness :
    choose_radio_like_human ([0, 1, 2] : List Nat).length 0 1 <
      ([0, 1, 2] : List Nat).length ∧
    (([0, 1, 2] : List Nat).get?
      (choose_radio_like_human ([0, 1, 2] : List Nat).length 0 1)).isSome = true ∧
    (3 ≤ ([0, 1, 2] : List Nat).length →
      (chooseLoop ([0, 1, 2] : List Nat).length 1).isSome = true) :=
  choose_radio_safe [0, 1, 2] 0 1 (by decide) (by decide) (by norm_num)
    (by norm_num [totalWeight, cumWeight, likertWeight, abs])

end FormsBot
